import Mathlib

/-!
Shallow embedding of the Teyvat Archive uptime monitor worker
(src/index.ts): the KV-backed check-and-record algorithm (`checkSite`),
the status snapshot (`getStatus`) and the bounded history query
(`getHistory`), together with the static site configuration.

The KV namespace is modelled as an association list of string keys to
stored values; a stored value either parses back into an `UptimeData`
record or is text on which `JSON.parse` throws.  Functions also return
the trace of KV operations they issue, in program order, so that
frame/effect claims can be stated.
-/

namespace TeyvatUptime

/-- Up or down, the two values of the status union in `UptimeData`. -/
inductive Status
  | up
  | down
deriving DecidableEq

/-- The `UptimeData` record of src/index.ts: one probe observation. -/
structure UptimeData where
  status : Status
  responseTime : Int
  statusCode : Option Nat
  error : Option String
  timestamp : Int
deriving DecidableEq

/-- A value stored in the KV namespace: either JSON that parses back into an
`UptimeData` record, or text on which `JSON.parse` throws. -/
inductive KVValue
  | record (d : UptimeData)
  | corrupt (raw : String)
deriving DecidableEq

/-- Parsing a stored value as an `UptimeData` record (`JSON.parse` inside a
try/catch): succeeds exactly on serialized records. -/
def decodeVal : KVValue → Option UptimeData
  | KVValue.record d => some d
  | KVValue.corrupt _ => none

/-- The KV namespace contents: bindings, most recently put first. -/
abbrev Store := List (String × KVValue)

/-- Model of `kv.get(key)`. -/
def kvGet (s : Store) (k : String) : Option KVValue :=
  match s.find? (fun p => p.1 == k) with
  | some p => some p.2
  | none => none

/-- Model of `kv.put(key, value)`: overwrite any binding for `k`. -/
def kvPut (s : Store) (k : String) (v : KVValue) : Store :=
  (k, v) :: s.filter (fun p => p.1 != k)

/-- Remove every binding of a key (used to compare a corrupt marker with an
absent one). -/
def kvErase (s : Store) (k : String) : Store :=
  s.filter (fun p => p.1 != k)

/-- A store is well formed when no key is bound twice (a KV namespace is a
map from keys to values). -/
def storeWF (s : Store) : Prop := (s.map Prod.fst).Nodup

/-- Character-list test used to model the store's list-by-prefix capability:
`leadsWith p k` holds when `k` begins with `p`. -/
def leadsWith : List Char → List Char → Bool
  | [], _ => true
  | _ :: _, [] => false
  | a :: xs, b :: ys => a == b && leadsWith xs ys

/-- Model of `kv.list({ prefix })`: the names of the keys beginning with
`pre`, in store enumeration order. -/
def kvListKeys (s : Store) (pre : String) : List String :=
  (s.map Prod.fst).filter (fun k => leadsWith pre.data k.data)

/-- The `current_<name>` key. -/
def currentKey (name : String) : String := "current_" ++ name

/-- The `last_history_<name>` marker key. -/
def lastHistoryKey (name : String) : String := "last_history_" ++ name

/-- The `history_<name>_` key stem that `getHistory` lists by. -/
def histStart (name : String) : String := "history_" ++ name ++ "_"

/-- The `history_<name>_<timestamp>` key of one history entry. -/
def historyKey (name : String) (timestamp : Int) : String :=
  histStart name ++ toString timestamp

/-- One storage operation issued by the worker; puts carry the optional
`expirationTtl` (in seconds). -/
inductive KVOp
  | get (key : String)
  | put (key : String) (value : KVValue) (expirationTtl : Option Nat)
  | listKeys (pre : String)
deriving DecidableEq

/-- Outcome of the `fetch` inside `checkSite`: a completed HTTP response
(its `ok` flag and numeric status code), or a thrown failure (timeout /
abort / transport error, with its message). -/
inductive ProbeOutcome
  | response (ok : Bool) (statusCode : Nat)
  | failure (msg : String)
deriving DecidableEq

/-- The `UptimeData` value each branch of `checkSite` builds from the probe
outcome and the two wall-clock readings. -/
def recordOf (outcome : ProbeOutcome) (responseTime timestamp : Int) : UptimeData :=
  match outcome with
  | ProbeOutcome.response ok code =>
      { status := if ok then Status.up else Status.down
        responseTime := responseTime
        statusCode := some code
        error := none
        timestamp := timestamp }
  | ProbeOutcome.failure msg =>
      { status := Status.down
        responseTime := responseTime
        statusCode := none
        error := some msg
        timestamp := timestamp }

/-- Lines 53–69 of src/index.ts: the sampling decision on the response path
(the marker status is compared with the new record's status). -/
def shouldStoreOnResponse (lastHistory : Option KVValue) (status : Status)
    (timestamp : Int) : Bool :=
  match lastHistory with
  | none => true
  | some lh =>
      match decodeVal lh with
      | some lastData =>
          let timeDiff := timestamp - lastData.timestamp
          let statusChanged := lastData.status != status
          let twoHoursPassed := decide (timeDiff > 2 * 60 * 60 * 1000)
          statusChanged || twoHoursPassed
      | none => true

/-- Lines 94–110 of src/index.ts: the sampling decision on the failure path,
with the literal status `down` in the comparison. -/
def shouldStoreOnFailure (lastHistory : Option KVValue) (timestamp : Int) : Bool :=
  match lastHistory with
  | none => true
  | some lh =>
      match decodeVal lh with
      | some lastData =>
          let timeDiff := timestamp - lastData.timestamp
          let statusChanged := lastData.status != Status.down
          let twoHoursPassed := decide (timeDiff > 2 * 60 * 60 * 1000)
          statusChanged || twoHoursPassed
      | none => true

/-- `checkSite` from src/index.ts, as a store transformer.  The fetch
outcome and the two `Date.now()` readings (`responseTime` elapsed,
`timestamp` fixed at probe start) are inputs; the result is the updated
store paired with the trace of KV operations in program order.  The history
put carries the 7-day `expirationTtl`. -/
def checkSite (name : String) (outcome : ProbeOutcome) (responseTime timestamp : Int)
    (s : Store) : Store × List KVOp :=
  match outcome with
  | ProbeOutcome.response ok code =>
      let data := recordOf (ProbeOutcome.response ok code) responseTime timestamp
      let s1 := kvPut s (currentKey name) (KVValue.record data)
      let lastHistory := kvGet s1 (lastHistoryKey name)
      let shouldStore := shouldStoreOnResponse lastHistory data.status timestamp
      if shouldStore then
        let s2 := kvPut s1 (historyKey name timestamp) (KVValue.record data)
        let s3 := kvPut s2 (lastHistoryKey name) (KVValue.record data)
        (s3,
          [KVOp.put (currentKey name) (KVValue.record data) none,
           KVOp.get (lastHistoryKey name),
           KVOp.put (historyKey name timestamp) (KVValue.record data) (some (7 * 24 * 60 * 60)),
           KVOp.put (lastHistoryKey name) (KVValue.record data) none])
      else
        (s1,
          [KVOp.put (currentKey name) (KVValue.record data) none,
           KVOp.get (lastHistoryKey name)])
  | ProbeOutcome.failure msg =>
      let data := recordOf (ProbeOutcome.failure msg) responseTime timestamp
      let s1 := kvPut s (currentKey name) (KVValue.record data)
      let lastHistory := kvGet s1 (lastHistoryKey name)
      let shouldStore := shouldStoreOnFailure lastHistory timestamp
      if shouldStore then
        let s2 := kvPut s1 (historyKey name timestamp) (KVValue.record data)
        let s3 := kvPut s2 (lastHistoryKey name) (KVValue.record data)
        (s3,
          [KVOp.put (currentKey name) (KVValue.record data) none,
           KVOp.get (lastHistoryKey name),
           KVOp.put (historyKey name timestamp) (KVValue.record data) (some (7 * 24 * 60 * 60)),
           KVOp.put (lastHistoryKey name) (KVValue.record data) none])
      else
        (s1,
          [KVOp.put (currentKey name) (KVValue.record data) none,
           KVOp.get (lastHistoryKey name)])

/-- The site names iterated by `getStatus`. -/
def statusSites : List String := ["main", "dashboard", "api", "cdn"]

/-- The value `getStatus` computes for one site: read the current slot;
absent key gives null, and a `JSON.parse` failure is caught and gives
null. -/
def currentEntry (s : Store) (site : String) : Option UptimeData :=
  match kvGet s (currentKey site) with
  | none => none
  | some v => decodeVal v

/-- The JSON bodies the worker serializes, kept structured. -/
inductive RespBody
  | text (t : String)
  | records (l : List UptimeData)
  | statusMap (m : List (String × Option UptimeData))
deriving DecidableEq

/-- An HTTP response: status code plus body. -/
structure Response where
  status : Nat
  body : RespBody
deriving DecidableEq

/-- `getStatus` from src/index.ts. -/
def getStatus (s : Store) : Response :=
  Response.mk 200
    (RespBody.statusMap (statusSites.map (fun site => (site, currentEntry s site))))

/-- The ordering induced by the comparator `(a, b) => b.timestamp -
a.timestamp`: `a` may precede `b` exactly when `b.timestamp ≤
a.timestamp`. -/
def tsDesc (a b : UptimeData) : Prop := b.timestamp ≤ a.timestamp

instance : DecidableRel tsDesc := fun a b => Int.decLe b.timestamp a.timestamp

instance : IsTotal UptimeData tsDesc := ⟨fun a b => Int.le_total b.timestamp a.timestamp⟩

instance : IsTrans UptimeData tsDesc := ⟨fun _ _ _ hab hbc => le_trans hbc hab⟩

/-- JavaScript falsiness of the `site` query value: `null` or the empty
string. -/
def strFalsy : Option String → Bool
  | none => true
  | some t => t == ""

/-- `getHistory` from src/index.ts: the guard, the list by key stem, the
decode loop (absent values and `JSON.parse` failures are skipped), the
stable sort by descending timestamp (`Array.prototype.sort` is stable, so
it is modelled by a stable insertion sort), and `slice(0, 100)`.  Also
returns the KV operation trace. -/
def getHistory (s : Store) (siteName : Option String) : Response × List KVOp :=
  if strFalsy siteName then
    (Response.mk 400 (RespBody.text "Site parameter required"), [])
  else
    let name := siteName.getD ""
    let keys := kvListKeys s (histStart name)
    let history := keys.filterMap (fun k => (kvGet s k).bind decodeVal)
    let sorted := List.insertionSort tsDesc history
    (Response.mk 200 (RespBody.records (sorted.take 100)),
     KVOp.listKeys (histStart name) :: keys.map KVOp.get)

/-- The `SiteCheck` descriptor. -/
structure SiteCheck where
  name : String
  url : String
  timeout : Nat
deriving DecidableEq

/-- The static `MONITORED_SITES` configuration. -/
def MONITORED_SITES : List SiteCheck :=
  [SiteCheck.mk "main" "https://teyvatarchive.online/api/health" 10000,
   SiteCheck.mk "dashboard" "https://dashboard.teyvatarchive.online" 10000,
   SiteCheck.mk "api" "https://server.teyvatarchive.online" 10000,
   SiteCheck.mk "cdn"
     "https://cdn.teyvatarchive.online/images/chapterIcons/UI_ChapterIcon_AkaFes.png" 10000]

/-- The sampling condition as the spec states it: marker absent, marker
unparseable, status changed, or strictly more than two hours (7,200,000 ms)
elapsed. -/
def samplesSpec (marker : Option KVValue) (newStatus : Status) (newTs : Int) : Bool :=
  match marker with
  | none => true
  | some (KVValue.corrupt _) => true
  | some (KVValue.record last) =>
      decide (last.status ≠ newStatus) || decide (newTs - last.timestamp > 7200000)

/-- The decodable history entries found under a target's key stem, in store
order: the spec-side notion of the entries `getHistory` is about. -/
def decodedEntries (s : Store) (name : String) : List UptimeData :=
  (s.filter (fun p => leadsWith (histStart name).data p.1.data)).filterMap
    (fun p => decodeVal p.2)

/-- A store with two decodable `main` history entries whose records share
timestamp 5 (history keys are distinct, so this is a reachable map shape for
an arbitrary store state). -/
def cexStore : Store :=
  [("history_main_5", KVValue.record (UptimeData.mk Status.up 1 (some 200) none 5)),
   ("history_main_6", KVValue.record (UptimeData.mk Status.up 2 (some 200) none 5))]

/-- A store with two decodable `main` history entries of distinct timestamps
and one corrupt entry. -/
def witStore : Store :=
  [("history_main_10", KVValue.record (UptimeData.mk Status.up 1 (some 200) none 10)),
   ("history_main_7", KVValue.corrupt "junk"),
   ("history_main_20", KVValue.record (UptimeData.mk Status.down 2 none (some "err") 20))]

/-- The storage keys `checkSite` reads or writes for one target: the current
slot, the last-seen marker, and the timestamped history entries. -/
def targetKeys (name k : String) : Prop :=
  k = currentKey name ∨ k = lastHistoryKey name ∨ ∃ ts : Int, k = historyKey name ts

/-- Extract the records body of a response (empty for other bodies). -/
def recordsOf (r : Response) : List UptimeData :=
  match r.body with
  | RespBody.records l => l
  | _ => []

/-- Extract the status-map body of a response (empty for other bodies). -/
def statusMapOf (r : Response) : List (String × Option UptimeData) :=
  match r.body with
  | RespBody.statusMap m => m
  | _ => []

/-! ### Store lemmas -/

theorem find?_key_filter_ne (s : Store) (k k' : String) (h : k' ≠ k) :
    (s.filter (fun p => p.1 != k)).find? (fun p => p.1 == k') =
      s.find? (fun p => p.1 == k') := by
  induction s with
  | nil => rfl
  | cons a t ih =>
    rcases eq_or_ne a.1 k with hk | hk
    · rw [List.filter_cons_of_neg (by simp [hk]),
        List.find?_cons_of_neg _ (by simp [hk, Ne.symm h]), ih]
    · rcases eq_or_ne a.1 k' with hk' | hk'
      · rw [List.filter_cons_of_pos (by simp [hk]),
          List.find?_cons_of_pos _ (by simp [hk']), List.find?_cons_of_pos _ (by simp [hk'])]
      · rw [List.filter_cons_of_pos (by simp [hk]),
          List.find?_cons_of_neg _ (by simp [hk']), List.find?_cons_of_neg _ (by simp [hk']), ih]

theorem kvGet_kvPut_self (s : Store) (k : String) (v : KVValue) :
    kvGet (kvPut s k v) k = some v := by
  simp [kvGet, kvPut]

theorem kvGet_kvPut_ne (s : Store) (k k' : String) (v : KVValue) (h : k' ≠ k) :
    kvGet (kvPut s k v) k' = kvGet s k' := by
  unfold kvGet kvPut
  rw [List.find?_cons_of_neg _ (by simp [Ne.symm h]), find?_key_filter_ne s k k' h]

theorem kvGet_kvPut (s : Store) (k k' : String) (v : KVValue) :
    kvGet (kvPut s k v) k' = if k' = k then some v else kvGet s k' := by
  rcases eq_or_ne k' k with rfl | h
  · rw [if_pos rfl, kvGet_kvPut_self]
  · rw [if_neg h, kvGet_kvPut_ne s k k' v h]

theorem kvGet_kvErase_self (s : Store) (k : String) : kvGet (kvErase s k) k = none := by
  unfold kvGet kvErase
  have : (s.filter (fun p => p.1 != k)).find? (fun p => p.1 == k) = none := by
    rw [List.find?_eq_none]
    intro x hx
    have := (List.mem_filter.mp hx).2
    simp only [bne_iff_ne, ne_eq] at this
    simp [this]
  rw [this]

theorem kvGet_kvErase_ne (s : Store) (k k' : String) (h : k' ≠ k) :
    kvGet (kvErase s k) k' = kvGet s k' := by
  unfold kvGet kvErase
  rw [find?_key_filter_ne s k k' h]

/-! ### Key shape lemmas -/

theorem str_data_append (a b : String) : (a ++ b).data = a.data ++ b.data := rfl

theorem str_ne_of_char_ne (a b : String) (i : Nat) (h : a.data[i]? ≠ b.data[i]?) :
    a ≠ b := fun e => h (by rw [e])

theorem currentKey_data (n : String) : (currentKey n).data = "current_".data ++ n.data := rfl

theorem lastHistoryKey_data (n : String) :
    (lastHistoryKey n).data = "last_history_".data ++ n.data := rfl

theorem histStart_data (n : String) :
    (histStart n).data = "history_".data ++ (n.data ++ "_".data) := by
  show (("history_" ++ n) ++ "_").data = _
  rw [str_data_append, str_data_append, List.append_assoc]

theorem historyKey_data (n : String) (ts : Int) :
    (historyKey n ts).data = (histStart n).data ++ (toString ts).data := rfl

theorem histStart_length (n : String) :
    (histStart n).data.length = n.data.length + 9 := by
  rw [histStart_data]
  simp only [List.length_append, show "history_".data.length = 8 from by decide,
    show "_".data.length = 1 from by decide]
  omega

theorem currentKey_char0 (n : String) : (currentKey n).data[0]? = some 'c' := by
  rw [currentKey_data, List.getElem?_append_left (by decide)]
  decide

theorem lastHistoryKey_char0 (n : String) : (lastHistoryKey n).data[0]? = some 'l' := by
  rw [lastHistoryKey_data, List.getElem?_append_left (by decide)]
  decide

theorem histStart_char0 (n : String) : (histStart n).data[0]? = some 'h' := by
  rw [histStart_data, List.getElem?_append_left (by decide)]
  decide

theorem historyKey_char0 (n : String) (ts : Int) : (historyKey n ts).data[0]? = some 'h' := by
  rw [historyKey_data, List.getElem?_append_left (by rw [histStart_length]; omega),
    histStart_char0]

theorem currentKey_char8 (n : String) : (currentKey n).data[8]? = n.data[0]? := by
  rw [currentKey_data, List.getElem?_append_right (by decide)]
  simp [show "current_".data.length = 8 from by decide]

theorem lastHistoryKey_char13 (n : String) :
    (lastHistoryKey n).data[13]? = n.data[0]? := by
  rw [lastHistoryKey_data, List.getElem?_append_right (by decide)]
  simp [show "last_history_".data.length = 13 from by decide]

theorem histStart_char8 (n : String) (hn : n.data ≠ []) :
    (histStart n).data[8]? = n.data[0]? := by
  rw [histStart_data, List.getElem?_append_right (by decide)]
  show (n.data ++ "_".data)[0]? = n.data[0]?
  rw [List.getElem?_append_left (List.length_pos.mpr hn)]

theorem historyKey_char8 (n : String) (ts : Int) (hn : n.data ≠ []) :
    (historyKey n ts).data[8]? = n.data[0]? := by
  rw [historyKey_data, List.getElem?_append_left (by rw [histStart_length]; omega),
    histStart_char8 n hn]

theorem currentKey_ne_lastHistoryKey (n m : String) : currentKey n ≠ lastHistoryKey m :=
  str_ne_of_char_ne _ _ 0 (by rw [currentKey_char0, lastHistoryKey_char0]; decide)

theorem currentKey_ne_historyKey (n m : String) (ts : Int) :
    currentKey n ≠ historyKey m ts :=
  str_ne_of_char_ne _ _ 0 (by rw [currentKey_char0, historyKey_char0]; decide)

theorem lastHistoryKey_ne_historyKey (n m : String) (ts : Int) :
    lastHistoryKey n ≠ historyKey m ts :=
  str_ne_of_char_ne _ _ 0 (by rw [lastHistoryKey_char0, historyKey_char0]; decide)

/-! ### Prefix-test lemmas -/

theorem leadsWith_append (p t : List Char) : leadsWith p (p ++ t) = true := by
  induction p with
  | nil => rfl
  | cons a xs ih => simp [leadsWith, ih]

theorem leadsWith_iff (p k : List Char) : leadsWith p k = true ↔ ∃ t, k = p ++ t := by
  induction p generalizing k with
  | nil =>
    simp [leadsWith]
  | cons a xs ih =>
    cases k with
    | nil =>
      simp [leadsWith]
    | cons b ys =>
      simp only [leadsWith, Bool.and_eq_true, beq_iff_eq, ih, List.cons_append,
        List.cons.injEq]
      constructor
      · rintro ⟨rfl, t, rfl⟩
        exact ⟨t, rfl, rfl⟩
      · rintro ⟨t, rfl, rfl⟩
        exact ⟨rfl, t, rfl⟩

theorem getElem?_of_leadsWith {p k : List Char} (h : leadsWith p k = true) {i : Nat}
    (hi : i < p.length) : k[i]? = p[i]? := by
  obtain ⟨t, rfl⟩ := (leadsWith_iff p k).mp h
  exact List.getElem?_append_left hi

/-! ### Canonical form of checkSite -/

theorem shouldStoreOnFailure_eq (lastHistory : Option KVValue) (timestamp : Int) :
    shouldStoreOnFailure lastHistory timestamp =
      shouldStoreOnResponse lastHistory Status.down timestamp := rfl

theorem bne_eq_decide_ne (a b : Status) : (a != b) = decide (a ≠ b) := by
  cases a <;> cases b <;> decide

theorem shouldStoreOnResponse_eq_samplesSpec (m : Option KVValue) (st : Status) (ts : Int) :
    shouldStoreOnResponse m st ts = samplesSpec m st ts := by
  rcases m with _ | (d | raw)
  · rfl
  · show ((d.status != st) || decide (ts - d.timestamp > 2 * 60 * 60 * 1000)) = _
    rw [bne_eq_decide_ne, show ((2 : Int) * 60 * 60 * 1000) = 7200000 from by norm_num]
    rfl
  · rfl

theorem checkSite_eval (name : String) (outcome : ProbeOutcome) (responseTime timestamp : Int)
    (s : Store) :
    checkSite name outcome responseTime timestamp s =
      (if shouldStoreOnResponse (kvGet s (lastHistoryKey name))
            (recordOf outcome responseTime timestamp).status timestamp then
        (kvPut (kvPut (kvPut s (currentKey name)
            (KVValue.record (recordOf outcome responseTime timestamp)))
            (historyKey name timestamp) (KVValue.record (recordOf outcome responseTime timestamp)))
            (lastHistoryKey name) (KVValue.record (recordOf outcome responseTime timestamp)),
         [KVOp.put (currentKey name) (KVValue.record (recordOf outcome responseTime timestamp)) none,
          KVOp.get (lastHistoryKey name),
          KVOp.put (historyKey name timestamp)
            (KVValue.record (recordOf outcome responseTime timestamp)) (some (7 * 24 * 60 * 60)),
          KVOp.put (lastHistoryKey name)
            (KVValue.record (recordOf outcome responseTime timestamp)) none])
      else
        (kvPut s (currentKey name) (KVValue.record (recordOf outcome responseTime timestamp)),
         [KVOp.put (currentKey name) (KVValue.record (recordOf outcome responseTime timestamp)) none,
          KVOp.get (lastHistoryKey name)])) := by
  have hmarker : kvGet (kvPut s (currentKey name)
      (KVValue.record (recordOf outcome responseTime timestamp))) (lastHistoryKey name) =
      kvGet s (lastHistoryKey name) :=
    kvGet_kvPut_ne _ _ _ _ (Ne.symm (currentKey_ne_lastHistoryKey name name))
  cases outcome with
  | response ok code =>
      simp only [checkSite, hmarker]
  | failure msg =>
      simp only [checkSite, hmarker, shouldStoreOnFailure_eq]
      rfl

/-! ### C1 -/

/-- C1: for every fresh record and store, `checkSite` writes a history entry
and overwrites the last-seen marker exactly when the marker is absent, fails
to parse, differs in status from the new record, or is more than 7,200,000 ms
older than the new record; and the decision rule on the caught-failure path
(which compares the marker's status against `down`) is the same function as
on the response path. -/
theorem checkSite_sampling_rule (name : String) (outcome : ProbeOutcome)
    (responseTime timestamp : Int) (s : Store) :
    ((∃ v ttl, KVOp.put (historyKey name timestamp) v ttl ∈
        (checkSite name outcome responseTime timestamp s).2) ↔
      samplesSpec (kvGet s (lastHistoryKey name))
        (recordOf outcome responseTime timestamp).status timestamp = true) ∧
    (kvGet (checkSite name outcome responseTime timestamp s).1 (lastHistoryKey name) =
      if samplesSpec (kvGet s (lastHistoryKey name))
          (recordOf outcome responseTime timestamp).status timestamp
      then some (KVValue.record (recordOf outcome responseTime timestamp))
      else kvGet s (lastHistoryKey name)) ∧
    (∀ lastHistory ts, shouldStoreOnFailure lastHistory ts =
      shouldStoreOnResponse lastHistory Status.down ts) := by
  rw [checkSite_eval, shouldStoreOnResponse_eq_samplesSpec]
  by_cases hc : samplesSpec (kvGet s (lastHistoryKey name))
      (recordOf outcome responseTime timestamp).status timestamp = true
  · rw [if_pos hc, if_pos hc]
    refine ⟨iff_of_true ⟨KVValue.record (recordOf outcome responseTime timestamp),
      some (7 * 24 * 60 * 60), by simp⟩ hc, kvGet_kvPut_self _ _ _,
      fun lh ts => shouldStoreOnFailure_eq lh ts⟩
  · rw [if_neg hc, if_neg hc]
    refine ⟨iff_of_false ?_ hc,
      kvGet_kvPut_ne _ _ _ _ (Ne.symm (currentKey_ne_lastHistoryKey name name)),
      fun lh ts => shouldStoreOnFailure_eq lh ts⟩
    rintro ⟨v, ttl, hmem⟩
    simp only [List.mem_cons, List.not_mem_nil, or_false] at hmem
    rcases hmem with h | h
    · exact (currentKey_ne_historyKey name name timestamp)
        (by injection h with h1 _ _; exact h1.symm)
    · exact KVOp.noConfusion h

/-! ### C3 -/

/-- C3: the record `checkSite` stores in the current slot has status `up`
exactly when the fetch completed with `ok = true`; an `ok = false` response
and a thrown failure both give `down`, and a thrown failure still writes a
(down) record instead of escaping the check. -/
theorem checkSite_status_classification (name : String) (outcome : ProbeOutcome)
    (responseTime timestamp : Int) (s : Store) :
    kvGet (checkSite name outcome responseTime timestamp s).1 (currentKey name) =
        some (KVValue.record (recordOf outcome responseTime timestamp)) ∧
      ((recordOf outcome responseTime timestamp).status = Status.up ↔
        ∃ code, outcome = ProbeOutcome.response true code) := by
  constructor
  · rw [checkSite_eval]
    by_cases hc : shouldStoreOnResponse (kvGet s (lastHistoryKey name))
        (recordOf outcome responseTime timestamp).status timestamp = true
    · rw [if_pos hc,
        kvGet_kvPut_ne _ _ _ _ (currentKey_ne_lastHistoryKey name name),
        kvGet_kvPut_ne _ _ _ _ (currentKey_ne_historyKey name name timestamp),
        kvGet_kvPut_self]
    · rw [if_neg hc, kvGet_kvPut_self]
  · cases outcome with
    | response ok code =>
        cases ok
        · simp [recordOf]
        · exact iff_of_true rfl ⟨code, rfl⟩
    | failure msg => simp [recordOf]

/-! ### C6 -/

/-- C6: every record value `checkSite` puts carries at most one of
`statusCode` and `error`: `statusCode` is present exactly on a completed
HTTP response (also a non-success one) and `error` exactly on a thrown
failure. -/
theorem checkSite_record_exclusivity (name : String) (outcome : ProbeOutcome)
    (responseTime timestamp : Int) (s : Store) (k : String) (v : UptimeData) (ttl : Option Nat)
    (hmem : KVOp.put k (KVValue.record v) ttl ∈
      (checkSite name outcome responseTime timestamp s).2) :
    ¬(v.statusCode.isSome = true ∧ v.error.isSome = true) ∧
      (v.statusCode.isSome = true ↔ ∃ ok code, outcome = ProbeOutcome.response ok code) ∧
      (v.error.isSome = true ↔ ∃ msg, outcome = ProbeOutcome.failure msg) := by
  have hv : v = recordOf outcome responseTime timestamp := by
    rw [checkSite_eval] at hmem
    by_cases hc : shouldStoreOnResponse (kvGet s (lastHistoryKey name))
        (recordOf outcome responseTime timestamp).status timestamp = true
    · rw [if_pos hc] at hmem
      simp only [List.mem_cons, List.not_mem_nil, or_false, KVOp.put.injEq,
        KVValue.record.injEq] at hmem
      tauto
    · rw [if_neg hc] at hmem
      simp only [List.mem_cons, List.not_mem_nil, or_false, KVOp.put.injEq,
        KVValue.record.injEq] at hmem
      tauto
  subst hv
  cases outcome with
  | response ok code =>
      refine ⟨by simp [recordOf], ?_, ?_⟩
      · exact iff_of_true (by simp [recordOf]) ⟨ok, code, rfl⟩
      · constructor
        · intro h
          simp [recordOf] at h
        · rintro ⟨msg, h⟩
          exact ProbeOutcome.noConfusion h
  | failure msg =>
      refine ⟨by simp [recordOf], ?_, ?_⟩
      · constructor
        · intro h
          simp [recordOf] at h
        · rintro ⟨ok, code, h⟩
          exact ProbeOutcome.noConfusion h
      · exact iff_of_true (by simp [recordOf]) ⟨msg, rfl⟩

/-- Witness for C6 at a concrete probe: the put of the current record of a
successful check on an empty store. -/
theorem checkSite_record_exclusivity_witness :
    (KVOp.put (currentKey "main")
        (KVValue.record (recordOf (ProbeOutcome.response true 200) 5 1000)) none ∈
      (checkSite "main" (ProbeOutcome.response true 200) 5 1000 []).2) ∧
      ¬(((recordOf (ProbeOutcome.response true 200) 5 1000).statusCode.isSome = true) ∧
        ((recordOf (ProbeOutcome.response true 200) 5 1000).error.isSome = true)) :=
  ⟨by decide,
    (checkSite_record_exclusivity "main" (ProbeOutcome.response true 200) 5 1000 []
      (currentKey "main") (recordOf (ProbeOutcome.response true 200) 5 1000) none
      (by decide)).1⟩

/-! ### C4 -/

/-- C4: a marker value that fails JSON parsing makes `checkSite` behave
exactly as with an absent marker, for every probe outcome: the same
operation trace, extensionally the same final store, a history entry keyed
by the new record's timestamp, and the marker overwritten with the new
record. -/
theorem checkSite_corrupt_marker (name : String) (outcome : ProbeOutcome)
    (responseTime timestamp : Int) (s : Store) (raw : String)
    (hmark : kvGet s (lastHistoryKey name) = some (KVValue.corrupt raw)) :
    (checkSite name outcome responseTime timestamp s).2 =
        (checkSite name outcome responseTime timestamp
          (kvErase s (lastHistoryKey name))).2 ∧
      (∀ k, kvGet (checkSite name outcome responseTime timestamp s).1 k =
        kvGet (checkSite name outcome responseTime timestamp
          (kvErase s (lastHistoryKey name))).1 k) ∧
      (∃ ttl, KVOp.put (historyKey name timestamp)
          (KVValue.record (recordOf outcome responseTime timestamp)) ttl ∈
          (checkSite name outcome responseTime timestamp s).2) ∧
      kvGet (checkSite name outcome responseTime timestamp s).1 (lastHistoryKey name) =
        some (KVValue.record (recordOf outcome responseTime timestamp)) := by
  have h1 : shouldStoreOnResponse (kvGet s (lastHistoryKey name))
      (recordOf outcome responseTime timestamp).status timestamp = true := by
    rw [hmark]; rfl
  have h2 : shouldStoreOnResponse
      (kvGet (kvErase s (lastHistoryKey name)) (lastHistoryKey name))
      (recordOf outcome responseTime timestamp).status timestamp = true := by
    rw [kvGet_kvErase_self]; rfl
  rw [checkSite_eval, checkSite_eval, if_pos h1, if_pos h2]
  refine ⟨rfl, ?_, ⟨some (7 * 24 * 60 * 60), by simp⟩, kvGet_kvPut_self _ _ _⟩
  intro k
  rw [kvGet_kvPut, kvGet_kvPut, kvGet_kvPut, kvGet_kvPut, kvGet_kvPut, kvGet_kvPut]
  by_cases hk1 : k = lastHistoryKey name
  · rw [if_pos hk1, if_pos hk1]
  · rw [if_neg hk1, if_neg hk1]
    by_cases hk2 : k = historyKey name timestamp
    · rw [if_pos hk2, if_pos hk2]
    · rw [if_neg hk2, if_neg hk2]
      by_cases hk3 : k = currentKey name
      · rw [if_pos hk3, if_pos hk3]
      · rw [if_neg hk3, if_neg hk3, kvGet_kvErase_ne _ _ _ hk1]

/-- Witness for C4: a store whose marker for `main` holds unparseable text;
the check overwrites it with the fresh record. -/
theorem checkSite_corrupt_marker_witness :
    kvGet [(lastHistoryKey "main", KVValue.corrupt "junk")] (lastHistoryKey "main") =
        some (KVValue.corrupt "junk") ∧
      kvGet (checkSite "main" (ProbeOutcome.response true 200) 5 1000
          [(lastHistoryKey "main", KVValue.corrupt "junk")]).1 (lastHistoryKey "main") =
        some (KVValue.record (recordOf (ProbeOutcome.response true 200) 5 1000)) :=
  ⟨by decide,
    (checkSite_corrupt_marker "main" (ProbeOutcome.response true 200) 5 1000
      [(lastHistoryKey "main", KVValue.corrupt "junk")] "junk" (by decide)).2.2.2⟩

/-! ### C5 -/

/-- C5: with a present, parseable marker of the same status whose timestamp
is within 2 hours of the new probe's, `checkSite` writes no history entry
and leaves the marker untouched, while the current slot alone is
overwritten. -/
theorem checkSite_stable_suppression (name : String) (outcome : ProbeOutcome)
    (responseTime timestamp : Int) (s : Store) (last : UptimeData)
    (hmark : kvGet s (lastHistoryKey name) = some (KVValue.record last))
    (hst : last.status = (recordOf outcome responseTime timestamp).status)
    (hts : timestamp - last.timestamp ≤ 7200000) :
    (checkSite name outcome responseTime timestamp s).1 =
        kvPut s (currentKey name)
          (KVValue.record (recordOf outcome responseTime timestamp)) ∧
      (checkSite name outcome responseTime timestamp s).2 =
        [KVOp.put (currentKey name)
            (KVValue.record (recordOf outcome responseTime timestamp)) none,
         KVOp.get (lastHistoryKey name)] ∧
      kvGet (checkSite name outcome responseTime timestamp s).1 (lastHistoryKey name) =
        kvGet s (lastHistoryKey name) := by
  have hc : shouldStoreOnResponse (kvGet s (lastHistoryKey name))
      (recordOf outcome responseTime timestamp).status timestamp = false := by
    rw [hmark]
    show ((last.status != (recordOf outcome responseTime timestamp).status) ||
      decide (timestamp - last.timestamp > 2 * 60 * 60 * 1000)) = false
    rw [hst, bne_self_eq_false, Bool.false_or,
      show ((2 : Int) * 60 * 60 * 1000) = 7200000 from by norm_num]
    exact decide_eq_false (by omega)
  rw [checkSite_eval, if_neg (by simp [hc])]
  exact ⟨rfl, rfl,
    kvGet_kvPut_ne _ _ _ _ (Ne.symm (currentKey_ne_lastHistoryKey name name))⟩

/-- Witness for C5: a marker at timestamp 0 with status up, a fresh
successful probe at timestamp 1000 — only the current-slot put and the
marker read are issued. -/
theorem checkSite_stable_suppression_witness :
    (1000 : Int) - (UptimeData.mk Status.up 5 (some 200) none 0).timestamp ≤ 7200000 ∧
      (checkSite "main" (ProbeOutcome.response true 200) 7 1000
          [(lastHistoryKey "main",
            KVValue.record (UptimeData.mk Status.up 5 (some 200) none 0))]).2 =
        [KVOp.put (currentKey "main")
            (KVValue.record (recordOf (ProbeOutcome.response true 200) 7 1000)) none,
         KVOp.get (lastHistoryKey "main")] :=
  ⟨by decide,
    (checkSite_stable_suppression "main" (ProbeOutcome.response true 200) 7 1000
      [(lastHistoryKey "main",
        KVValue.record (UptimeData.mk Status.up 5 (some 200) none 0))]
      (UptimeData.mk Status.up 5 (some 200) none 0)
      (by decide) (by decide) (by decide)).2.1⟩

/-! ### C8 -/

/-- C8: a missing `site` parameter makes `getHistory` return 400 with body
exactly `Site parameter required`, with an empty storage-operation trace. -/
theorem getHistory_missing_site (s : Store) :
    getHistory s none = (Response.mk 400 (RespBody.text "Site parameter required"), []) := rfl

/-! ### C10 -/

/-- C10: an empty-string `site` value is falsy, so `getHistory` handles it
identically to an omitted parameter: 400, the fixed body, and no storage
operations. -/
theorem getHistory_empty_site (s : Store) :
    getHistory s (some "") = getHistory s none ∧
      getHistory s (some "") =
        (Response.mk 400 (RespBody.text "Site parameter required"), []) :=
  ⟨rfl, rfl⟩

/-! ### C7 -/

theorem lookup_status_sites (f : String → Option UptimeData) (site : String)
    (hs : site ∈ statusSites) :
    (statusSites.map (fun n => (n, f n))).lookup site = some (f site) := by
  simp only [statusSites, List.mem_cons, List.not_mem_nil, or_false] at hs
  rcases hs with rfl | rfl | rfl | rfl <;> rfl

/-- C7: `getStatus` returns a 200 mapping over the four configured names; a
target whose current slot is absent or holds unparseable JSON maps to null,
and each target's entry depends only on that target's current slot, not on
any other slot's absence or corruption. -/
theorem getStatus_best_effort (s : Store) :
    (getStatus s).status = 200 ∧
      (statusMapOf (getStatus s)).map Prod.fst = statusSites ∧
      (∀ site, site ∈ statusSites →
        ((kvGet s (currentKey site) = none ∨
            (∃ raw, kvGet s (currentKey site) = some (KVValue.corrupt raw))) →
          (statusMapOf (getStatus s)).lookup site = some none) ∧
        (∀ s₂ : Store, kvGet s₂ (currentKey site) = kvGet s (currentKey site) →
          (statusMapOf (getStatus s₂)).lookup site =
            (statusMapOf (getStatus s)).lookup site)) := by
  refine ⟨rfl, rfl, fun site hs => ⟨?_, ?_⟩⟩
  · intro h
    have he : currentEntry s site = none := by
      unfold currentEntry
      rcases h with h | ⟨raw, h⟩ <;> rw [h]
      rfl
    rw [show statusMapOf (getStatus s) =
        statusSites.map (fun n => (n, currentEntry s n)) from rfl,
      lookup_status_sites _ _ hs, he]
  · intro s₂ h2
    have he : currentEntry s₂ site = currentEntry s site := by
      unfold currentEntry
      rw [h2]
    rw [show statusMapOf (getStatus s₂) =
        statusSites.map (fun n => (n, currentEntry s₂ n)) from rfl,
      show statusMapOf (getStatus s) =
        statusSites.map (fun n => (n, currentEntry s n)) from rfl,
      lookup_status_sites _ _ hs, lookup_status_sites _ _ hs, he]

/-- Witness for C7: on the empty store, the `api` entry of the status map is
null. -/
theorem getStatus_best_effort_witness :
    ("api" ∈ statusSites) ∧ (statusMapOf (getStatus [])).lookup "api" = some none :=
  ⟨by decide, ((getStatus_best_effort []).2.2 "api" (by decide)).1 (Or.inl rfl)⟩

/-! ### C9 -/

theorem targetKeys_separation (n m : String) (hn : n.data ≠ []) (hm : m.data ≠ [])
    (hne : n.data[0]? ≠ m.data[0]?) :
    (∀ k, targetKeys n k → ¬ targetKeys m k) ∧
      (∀ k, targetKeys m k → leadsWith (histStart n).data k.data = false) ∧
      (∀ ts : Int, leadsWith (histStart n).data (historyKey n ts).data = true) := by
  refine ⟨?_, ?_, ?_⟩
  · intro k hk1 hk2
    simp only [targetKeys] at hk1 hk2
    rcases hk1 with rfl | rfl | ⟨ts, rfl⟩ <;> rcases hk2 with h | h | ⟨ts', h⟩
    · exact str_ne_of_char_ne _ _ 8
        (by rw [currentKey_char8, currentKey_char8]; exact hne) h
    · exact currentKey_ne_lastHistoryKey n m h
    · exact currentKey_ne_historyKey n m ts' h
    · exact currentKey_ne_lastHistoryKey m n h.symm
    · exact str_ne_of_char_ne _ _ 13
        (by rw [lastHistoryKey_char13, lastHistoryKey_char13]; exact hne) h
    · exact lastHistoryKey_ne_historyKey n m ts' h
    · exact currentKey_ne_historyKey m n ts h.symm
    · exact lastHistoryKey_ne_historyKey m n ts h.symm
    · exact str_ne_of_char_ne _ _ 8
        (by rw [historyKey_char8 n ts hn, historyKey_char8 m ts' hm]; exact hne) h
  · intro k hk
    simp only [targetKeys] at hk
    rcases hk with rfl | rfl | ⟨ts, rfl⟩
    · cases hlw : leadsWith (histStart n).data (currentKey m).data
      · rfl
      · exfalso
        have hch := getElem?_of_leadsWith hlw (i := 0) (by rw [histStart_length]; omega)
        rw [currentKey_char0, histStart_char0] at hch
        exact absurd hch (by decide)
    · cases hlw : leadsWith (histStart n).data (lastHistoryKey m).data
      · rfl
      · exfalso
        have hch := getElem?_of_leadsWith hlw (i := 0) (by rw [histStart_length]; omega)
        rw [lastHistoryKey_char0, histStart_char0] at hch
        exact absurd hch (by decide)
    · cases hlw : leadsWith (histStart n).data (historyKey m ts).data
      · rfl
      · exfalso
        have hch := getElem?_of_leadsWith hlw (i := 8) (by rw [histStart_length]; omega)
        rw [historyKey_char8 m ts hm, histStart_char8 n hn] at hch
        exact hne hch.symm
  · intro ts
    rw [historyKey_data]
    exact leadsWith_append _ _

/-- C9: two distinct configured targets have disjoint current/marker/history
key sets, and the history listing stem of one target never matches another
target's keys while matching that target's own history keys. -/
theorem monitored_key_isolation (n m : String)
    (hn : n ∈ MONITORED_SITES.map SiteCheck.name)
    (hm : m ∈ MONITORED_SITES.map SiteCheck.name) (hne : n ≠ m) :
    (∀ k, targetKeys n k → ¬ targetKeys m k) ∧
      (∀ k, targetKeys m k → leadsWith (histStart n).data k.data = false) ∧
      (∀ ts : Int, leadsWith (histStart n).data (historyKey n ts).data = true) := by
  have hn' : n = "main" ∨ n = "dashboard" ∨ n = "api" ∨ n = "cdn" := by
    simpa [MONITORED_SITES] using hn
  have hm' : m = "main" ∨ m = "dashboard" ∨ m = "api" ∨ m = "cdn" := by
    simpa [MONITORED_SITES] using hm
  rcases hn' with rfl | rfl | rfl | rfl <;> rcases hm' with rfl | rfl | rfl | rfl <;>
    first
      | exact absurd rfl hne
      | exact targetKeys_separation _ _ (by decide) (by decide) (by decide)

/-- Witness for C9: `main` is configured, and the current key of `main` is
not a key of target `api`. -/
theorem monitored_key_isolation_witness :
    ("main" ∈ MONITORED_SITES.map SiteCheck.name) ∧
      ¬ targetKeys "api" (currentKey "main") :=
  ⟨by decide,
    (monitored_key_isolation "main" "api" (by decide) (by decide) (by decide)).1
      (currentKey "main") (Or.inl rfl)⟩

/-! ### C2 -/

theorem kvGet_cons_self (a : String × KVValue) (t : Store) :
    kvGet (a :: t) a.1 = some a.2 := by
  unfold kvGet
  rw [List.find?_cons_of_pos _ (by simp)]

theorem history_entries_eq (s : Store) (hw : storeWF s) (pre : String) :
    (kvListKeys s pre).filterMap (fun k => (kvGet s k).bind decodeVal) =
      (s.filter (fun p => leadsWith pre.data p.1.data)).filterMap
        (fun p => decodeVal p.2) := by
  induction s with
  | nil => rfl
  | cons a t ih =>
    rw [storeWF, List.map_cons, List.nodup_cons] at hw
    obtain ⟨hka, hnd⟩ := hw
    have ih' := ih hnd
    have hcongr : (kvListKeys t pre).filterMap (fun k => (kvGet (a :: t) k).bind decodeVal) =
        (kvListKeys t pre).filterMap (fun k => (kvGet t k).bind decodeVal) := by
      refine List.filterMap_congr (fun k hk => ?_)
      have hkmem : k ∈ t.map Prod.fst := (List.mem_filter.mp hk).1
      have hne : ¬ a.1 = k := fun e => hka (by rw [e]; exact hkmem)
      unfold kvGet
      rw [List.find?_cons_of_neg _ (by simp [hne])]
    cases hp : leadsWith pre.data a.1.data
    · have h1 : kvListKeys (a :: t) pre = kvListKeys t pre := by
        unfold kvListKeys
        rw [List.map_cons, List.filter_cons_of_neg (by simp [hp])]
      have h2 : (a :: t).filter (fun p => leadsWith pre.data p.1.data) =
          t.filter (fun p => leadsWith pre.data p.1.data) :=
        List.filter_cons_of_neg (by simp [hp])
      rw [h1, h2, hcongr, ih']
    · have h1 : kvListKeys (a :: t) pre = a.1 :: kvListKeys t pre := by
        unfold kvListKeys
        rw [List.map_cons, List.filter_cons_of_pos (by simp [hp])]
      have h2 : (a :: t).filter (fun p => leadsWith pre.data p.1.data) =
          a :: t.filter (fun p => leadsWith pre.data p.1.data) :=
        List.filter_cons_of_pos (by simp [hp])
      rw [h1, h2, List.filterMap_cons, List.filterMap_cons, kvGet_cons_self,
        Option.some_bind, hcongr, ih']

/-- C2 (amended): for a well-formed store and a non-empty target name,
`getHistory` answers 200 with a records body; the body is sorted by
timestamp descending (strictly descending whenever the decodable entries
under the target's key stem have pairwise-distinct timestamps), has length
`min 100 N` for `N` decodable entries, forms — together with the dropped
sorted suffix — a permutation of exactly those decodable entries (so
undecodable entries are skipped), every returned timestamp is at least
every dropped timestamp (truncation to 100 happens only after sorting), and
when at most 100 decodable entries exist all of them are returned. -/
theorem getHistory_sorted_bounded (s : Store) (name : String) (hw : storeWF s)
    (hname : name ≠ "") :
    (getHistory s (some name)).1.status = 200 ∧
    (getHistory s (some name)).1.body =
      RespBody.records (recordsOf (getHistory s (some name)).1) ∧
    (recordsOf (getHistory s (some name)).1).length =
      min 100 (decodedEntries s name).length ∧
    List.Sorted tsDesc (recordsOf (getHistory s (some name)).1) ∧
    (recordsOf (getHistory s (some name)).1 ++
        (List.insertionSort tsDesc (decodedEntries s name)).drop 100).Perm
      (decodedEntries s name) ∧
    (∀ x ∈ recordsOf (getHistory s (some name)).1,
      ∀ y ∈ (List.insertionSort tsDesc (decodedEntries s name)).drop 100,
        y.timestamp ≤ x.timestamp) ∧
    ((decodedEntries s name).length ≤ 100 →
      (recordsOf (getHistory s (some name)).1).Perm (decodedEntries s name)) ∧
    ((decodedEntries s name).Pairwise (fun a b => a.timestamp ≠ b.timestamp) →
      (recordsOf (getHistory s (some name)).1).Pairwise
        (fun a b => b.timestamp < a.timestamp)) := by
  have hfal : ¬ (strFalsy (some name) = true) := by
    simp [strFalsy, hname]
  have hres : getHistory s (some name) =
      (Response.mk 200 (RespBody.records
        ((List.insertionSort tsDesc (decodedEntries s name)).take 100)),
       KVOp.listKeys (histStart name) ::
         (kvListKeys s (histStart name)).map KVOp.get) := by
    unfold getHistory
    rw [if_neg hfal]
    show (Response.mk 200 (RespBody.records
        ((List.insertionSort tsDesc
          ((kvListKeys s (histStart name)).filterMap
            (fun k => (kvGet s k).bind decodeVal))).take 100)),
       KVOp.listKeys (histStart name) ::
         (kvListKeys s (histStart name)).map KVOp.get) = _
    rw [history_entries_eq s hw (histStart name)]
    rfl
  rw [hres]
  refine ⟨rfl, rfl, ?_, ?_, ?_, ?_, ?_, ?_⟩
  · show ((List.insertionSort tsDesc (decodedEntries s name)).take 100).length =
      min 100 (decodedEntries s name).length
    rw [List.length_take,
      (List.perm_insertionSort tsDesc (decodedEntries s name)).length_eq]
  · show List.Sorted tsDesc ((List.insertionSort tsDesc (decodedEntries s name)).take 100)
    exact List.Pairwise.sublist (List.take_sublist _ _)
      (List.sorted_insertionSort tsDesc (decodedEntries s name))
  · show ((List.insertionSort tsDesc (decodedEntries s name)).take 100 ++
        (List.insertionSort tsDesc (decodedEntries s name)).drop 100).Perm
      (decodedEntries s name)
    rw [List.take_append_drop]
    exact List.perm_insertionSort tsDesc (decodedEntries s name)
  · show ∀ x ∈ (List.insertionSort tsDesc (decodedEntries s name)).take 100,
      ∀ y ∈ (List.insertionSort tsDesc (decodedEntries s name)).drop 100,
        y.timestamp ≤ x.timestamp
    have hs := List.sorted_insertionSort tsDesc (decodedEntries s name)
    rw [← List.take_append_drop 100
      (List.insertionSort tsDesc (decodedEntries s name))] at hs
    exact (List.pairwise_append.mp hs).2.2
  · intro hlen
    show ((List.insertionSort tsDesc (decodedEntries s name)).take 100).Perm
      (decodedEntries s name)
    rw [List.take_of_length_le (by
      rw [(List.perm_insertionSort tsDesc (decodedEntries s name)).length_eq]
      exact hlen)]
    exact List.perm_insertionSort tsDesc (decodedEntries s name)
  · intro hdist
    have hne' : (List.insertionSort tsDesc (decodedEntries s name)).Pairwise
        (fun a b => a.timestamp ≠ b.timestamp) :=
      ((List.perm_insertionSort tsDesc (decodedEntries s name)).pairwise_iff
        (fun h => Ne.symm h)).mpr hdist
    have htake : ((List.insertionSort tsDesc (decodedEntries s name)).take 100).Pairwise
        (fun a b => a.timestamp ≠ b.timestamp) :=
      List.Pairwise.sublist (List.take_sublist _ _) hne'
    have hsorted : ((List.insertionSort tsDesc (decodedEntries s name)).take 100).Pairwise
        tsDesc :=
      List.Pairwise.sublist (List.take_sublist _ _)
        (List.sorted_insertionSort tsDesc (decodedEntries s name))
    show ((List.insertionSort tsDesc (decodedEntries s name)).take 100).Pairwise
      (fun a b => b.timestamp < a.timestamp)
    exact (hsorted.and htake).imp (fun h => lt_of_le_of_ne h.1 (Ne.symm h.2))

/-- Witness for the amended C2 on `witStore` (two decodable entries, one
corrupt): the hypotheses hold and the returned body has the length the
theorem gives. -/
theorem getHistory_sorted_bounded_witness :
    storeWF witStore ∧ ("main" : String) ≠ "" ∧
      (recordsOf (getHistory witStore (some "main")).1).length =
        min 100 (decodedEntries witStore "main").length :=
  ⟨by unfold storeWF; decide, by decide,
    (getHistory_sorted_bounded witStore "main" (by unfold storeWF; decide) (by decide)).2.2.1⟩

/-- C2 as stated is refuted at a concrete store: `cexStore` is well formed,
`getHistory` returns both `main` entries (timestamps 5 and 5), and the
returned list is not sorted strictly descending by timestamp. -/
theorem getHistory_not_strictly_descending :
    storeWF cexStore ∧
      recordsOf (getHistory cexStore (some "main")).1 =
        [UptimeData.mk Status.up 1 (some 200) none 5,
         UptimeData.mk Status.up 2 (some 200) none 5] ∧
      ¬ (recordsOf (getHistory cexStore (some "main")).1).Pairwise
          (fun a b => b.timestamp < a.timestamp) :=
  ⟨by unfold storeWF; decide, by decide, by decide⟩

end TeyvatUptime
